import Mathlib

/-!
Shallow embedding of the `rust_todo_cli` program (`src/main.rs`), a terminal
todo-list application built from an atomic id generator, a vector-backed task
store (`TasksModel`), a console view (`CliView`) and a presenter running the
menu interaction loop.

Machine integers: the id counter is a Rust `AtomicU32` incremented with
`fetch_add` (wrapping on overflow); we model its values as `Nat` reduced
modulo `2^32`.  Strings are Lean `String`s; Rust's `str::trim` is modelled on
the underlying character list.  The interaction handlers' console output is
modelled as an explicit list of printed lines, and mutation as explicit state
passing.
-/

namespace TodoCli

/-- `2 ^ 32`, the modulus of Rust `u32` wrapping arithmetic. -/
def U32MOD : Nat := 4294967296

namespace id_generation

/-- `static COUNTER: AtomicU32 = AtomicU32::new(1)` — the initial counter value. -/
def COUNTER_INIT : Nat := 1

/-- `pub fn next() -> u32 { COUNTER.fetch_add(1, Ordering::Relaxed) }`:
`fetch_add` returns the previous value and stores the wrapped increment.
The global cell is modelled by explicit state passing: `next c` is
`(returned value, new counter value)`. -/
def next (c : Nat) : Nat × Nat := (c, (c + 1) % U32MOD)

/-- Counter value after `k` calls to `next`, starting from `COUNTER_INIT`. -/
def counterAfter : Nat → Nat
  | 0 => COUNTER_INIT
  | k + 1 => (next (counterAfter k)).2

/-- Value returned by the `k`-th call to `next` (0-indexed), starting from the
initial program state. -/
def idValue (k : Nat) : Nat := (next (counterAfter k)).1

end id_generation

/-- The `Task` struct of `main.rs`. -/
structure Task where
  id : Nat
  title : String
  description : String
  date : String
  done : Bool
deriving DecidableEq

/-- `Task::new`: builds a task whose id is drawn from `id_generation::next()`;
the counter state is passed explicitly, and the updated counter is returned. -/
def Task.new (title description date : String) (done : Bool) (c : Nat) :
    Task × Nat :=
  let p := id_generation.next c
  ({ id := p.1, title := title, description := description, date := date,
     done := done }, p.2)

/-- The error string `format!("Task with id {} not found.", id)`. -/
def notFoundMsg (id : Nat) : String :=
  "Task with id " ++ toString id ++ " not found."

/-- Rust `Iterator::position`: index of the first element satisfying `p`. -/
def position {α : Type} (p : α → Bool) : List α → Option Nat
  | [] => none
  | x :: xs => if p x then some 0 else (position p xs).map (· + 1)

namespace TasksModel

/-- `pub fn add(&mut self, item: Task) { self.tasks.push(item); }` -/
def add (tasks : List Task) (item : Task) : List Task := tasks ++ [item]

/-- `pub fn get_all(&self) -> &[Task] { &self.tasks }` -/
def get_all (tasks : List Task) : List Task := tasks

/-- `pub fn delete_all(&mut self) { self.tasks.clear(); }` -/
def delete_all (_tasks : List Task) : List Task := []

/-- `pub fn delete(&mut self, id: u32) -> Result<(), String>`: finds the
position of the first task with matching id and removes it (`Vec::remove`),
otherwise errs.  Returns `(result, new task vector)`. -/
def delete (tasks : List Task) (id : Nat) : Except String Unit × List Task :=
  match position (fun item => item.id == id) tasks with
  | some i => (Except.ok (), tasks.eraseIdx i)
  | none => (Except.error (notFoundMsg id), tasks)

/-- Helper for `toggle`: `self.tasks.iter_mut().find(|item| item.id == id)`
followed by `item.done = !item.done`, i.e. flip the `done` flag of the first
task with matching id; `none` when no task matches. -/
def toggleGo (id : Nat) : List Task → Option (List Task)
  | [] => none
  | item :: rest =>
    if item.id == id then some ({ item with done := !item.done } :: rest)
    else (toggleGo id rest).map (item :: ·)

/-- `pub fn toggle(&mut self, id: u32) -> Result<(), String>`. -/
def toggle (tasks : List Task) (id : Nat) : Except String Unit × List Task :=
  match toggleGo id tasks with
  | some l => (Except.ok (), l)
  | none => (Except.error (notFoundMsg id), tasks)

end TasksModel

/-- Rust `str::trim`, modelled on the character list: drop Unicode whitespace
from both ends. -/
def trimChars (cs : List Char) : List Char :=
  ((cs.dropWhile Char.isWhitespace).reverse.dropWhile Char.isWhitespace).reverse

/-- `CliView::get_user_input`: reads one line from stdin and returns
`input.trim().to_string()`.  The line read is passed explicitly. -/
def CliView.get_user_input (line : String) : String := ⟨trimChars line.data⟩

/-- Rust `str::parse::<u32>()`: optional leading `+` sign, then one or more
ASCII digits, value below `2^32`; anything else is a parse error (`none`). -/
def parse_u32 (s : String) : Option Nat :=
  let ds := match s.data with
    | '+' :: rest => rest
    | cs => cs
  if ds.isEmpty then none
  else if ds.all Char.isDigit then
    let v := ds.foldl (fun a c => a * 10 + (c.toNat - 48)) 0
    if v < U32MOD then some v else none
  else none

/-- The branch taken by one iteration of `Presenter::interaction_loop`'s
`match option` dispatch. -/
inductive MenuBranch where
  | showTasks
  | addTask
  | deleteTask
  | toggleStatus
  | deleteTasks
  | exitLoop
  | invalidOption
deriving DecidableEq

namespace Presenter

/-- `self.view.get_user_input("Select an option:").parse::<u32>().unwrap_or(0)` -/
def menuSelect (line : String) : Nat :=
  (parse_u32 (CliView.get_user_input line)).getD 0

/-- The `match option { 1 => .., 2 => .., 3 => .., 4 => .., 5 => .., 0 => break,
_ => println!("Invalid option") }` dispatch of `interaction_loop`, applied to
the line read for the menu prompt. -/
def menuBranch (line : String) : MenuBranch :=
  match menuSelect line with
  | 1 => MenuBranch.showTasks
  | 2 => MenuBranch.addTask
  | 3 => MenuBranch.deleteTask
  | 4 => MenuBranch.toggleStatus
  | 5 => MenuBranch.deleteTasks
  | 0 => MenuBranch.exitLoop
  | _ => MenuBranch.invalidOption

/-- `Presenter::add_task`: reads title and description lines (trimmed by
`get_user_input`); if either is empty, returns without touching the model;
otherwise builds a task via `Task::new` (timestamp string passed explicitly)
and pushes it.  Result: `(task vector, id counter, printed lines)`. -/
def add_task (titleLine descLine nowSecs : String) (tasks : List Task)
    (c : Nat) : List Task × Nat × List String :=
  let title := CliView.get_user_input titleLine
  let description := CliView.get_user_input descLine
  let printed := ["Enter task title:", "Enter task description:"]
  if title.isEmpty || description.isEmpty then (tasks, c, printed)
  else
    let p := Task.new title description nowSecs false c
    (TasksModel.add tasks p.1, p.2, printed)

end Presenter

end TodoCli

namespace TodoCli

/-! ## Helper lemmas -/

lemma counterAfter_eq (k : Nat) :
    id_generation.counterAfter k = (1 + k) % U32MOD := by
  induction k with
  | zero =>
    simp [id_generation.counterAfter, id_generation.COUNTER_INIT, U32MOD]
  | succ k ih =>
    simp only [id_generation.counterAfter, id_generation.next, ih,
      Nat.mod_add_mod]
    ring_nf

lemma idValue_eq (k : Nat) : id_generation.idValue k = (1 + k) % U32MOD := by
  simp [id_generation.idValue, id_generation.next, counterAfter_eq]

lemma idValue_of_lt {k : Nat} (h : k < U32MOD - 1) :
    id_generation.idValue k = 1 + k := by
  rw [idValue_eq]
  apply Nat.mod_eq_of_lt
  simp only [U32MOD] at h ⊢
  omega

lemma position_eq_none {α : Type} {p : α → Bool} {l : List α}
    (h : ∀ x ∈ l, p x = false) : position p l = none := by
  induction l with
  | nil => rfl
  | cons a l ih =>
    simp only [position, h a (List.mem_cons_self a l),
      ih fun x hx => h x (List.mem_cons_of_mem a hx)]
    simp

lemma position_first_match {α : Type} {p : α → Bool} (pre : List α) {x : α}
    (suf : List α) (hx : p x = true) (hpre : ∀ u ∈ pre, p u = false) :
    position p (pre ++ x :: suf) = some pre.length := by
  induction pre with
  | nil => simp [position, hx]
  | cons a l ih =>
    simp only [List.cons_append, position, hpre a (List.mem_cons_self a l),
      ih fun u hu => hpre u (List.mem_cons_of_mem a hu)]
    simp
    exact ih fun u hu => hpre u (List.mem_cons_of_mem a hu)

lemma eraseIdx_at_split {α : Type} (pre : List α) (x : α) (suf : List α) :
    (pre ++ x :: suf).eraseIdx pre.length = pre ++ suf := by
  induction pre with
  | nil => rfl
  | cons a l ih => simp [List.eraseIdx, ih]

lemma delete_absent {m : List Task} {id : Nat} (h : ∀ t ∈ m, t.id ≠ id) :
    TasksModel.delete m id = (Except.error (notFoundMsg id), m) := by
  have hpos : position (fun item => item.id == id) m = none :=
    position_eq_none fun x hx => by
      simpa using h x hx
  simp [TasksModel.delete, hpos]

lemma delete_first_match {pre : List Task} {t : Task} {suf : List Task}
    {id : Nat} (ht : t.id = id) (hpre : ∀ u ∈ pre, u.id ≠ id) :
    TasksModel.delete (pre ++ t :: suf) id = (Except.ok (), pre ++ suf) := by
  have hpos : position (fun item => item.id == id) (pre ++ t :: suf)
      = some pre.length := by
    apply position_first_match pre suf (by simpa using ht)
    intro u hu
    simpa using hpre u hu
  simp [TasksModel.delete, hpos, eraseIdx_at_split]

lemma toggleGo_absent {m : List Task} {id : Nat} (h : ∀ t ∈ m, t.id ≠ id) :
    TasksModel.toggleGo id m = none := by
  induction m with
  | nil => rfl
  | cons a l ih =>
    have ha : (a.id == id) = false := by
      simpa using h a (List.mem_cons_self a l)
    simp [TasksModel.toggleGo, ha,
      ih fun x hx => h x (List.mem_cons_of_mem a hx)]

lemma toggleGo_first_match {pre : List Task} {t : Task} {suf : List Task}
    {id : Nat} (ht : t.id = id) (hpre : ∀ u ∈ pre, u.id ≠ id) :
    TasksModel.toggleGo id (pre ++ t :: suf)
      = some (pre ++ { t with done := !t.done } :: suf) := by
  induction pre with
  | nil => simp [TasksModel.toggleGo, ht]
  | cons a l ih =>
    have ha : (a.id == id) = false := by
      simpa using hpre a (List.mem_cons_self a l)
    simp only [List.cons_append, TasksModel.toggleGo, ha, Bool.false_eq_true,
      if_false, ih fun u hu => hpre u (List.mem_cons_of_mem a hu)]
    simp
    exact ih fun u hu => hpre u (List.mem_cons_of_mem a hu)

lemma toggle_first_match {pre : List Task} {t : Task} {suf : List Task}
    {id : Nat} (ht : t.id = id) (hpre : ∀ u ∈ pre, u.id ≠ id) :
    TasksModel.toggle (pre ++ t :: suf) id
      = (Except.ok (), pre ++ { t with done := !t.done } :: suf) := by
  simp [TasksModel.toggle, toggleGo_first_match ht hpre]

lemma exists_first_match {m : List Task} {id : Nat} (h : ∃ t ∈ m, t.id = id) :
    ∃ pre t suf, m = pre ++ t :: suf ∧ t.id = id ∧ ∀ u ∈ pre, u.id ≠ id := by
  induction m with
  | nil => simp at h
  | cons a l ih =>
    by_cases ha : a.id = id
    · exact ⟨[], a, l, rfl, ha, by simp⟩
    · have hl : ∃ t ∈ l, t.id = id := by
        rcases h with ⟨t, ht, hid⟩
        rcases List.mem_cons.mp ht with rfl | htl
        · exact absurd hid ha
        · exact ⟨t, htl, hid⟩
      rcases ih hl with ⟨pre, t, suf, hsplit, hid, hpre⟩
      refine ⟨a :: pre, t, suf, by simp [hsplit], hid, ?_⟩
      intro u hu
      rcases List.mem_cons.mp hu with rfl | hupre
      · exact ha
      · exact hpre u hupre

lemma eraseIdx_sublist_self {α : Type} (l : List α) (k : Nat) :
    List.Sublist (l.eraseIdx k) l := by
  induction l generalizing k with
  | nil => simp [List.eraseIdx]
  | cons a l ih =>
    cases k with
    | zero => exact List.sublist_cons_self a l
    | succ k => exact List.Sublist.cons₂ a (ih k)

lemma string_mk_nil_isEmpty : (String.mk [] : String).isEmpty = true := rfl

/-! ## Claim theorems -/

/-- Claim C1 (code-bug evidence): in `interaction_loop` the menu line is read
through `parse::<u32>().unwrap_or(0)`, so an unparseable line such as "abc"
yields the default 0 and dispatches to the exit branch (`0 => break`), not to
the invalid-option branch; the loop thus terminates on parse failure, while a
successfully parsed non-menu value such as "7" does reach the invalid-option
branch. -/
theorem c1_parse_failure_exits_loop :
    parse_u32 (CliView.get_user_input "abc") = none ∧
    Presenter.menuBranch "abc" = MenuBranch.exitLoop ∧
    Presenter.menuBranch "abc" ≠ MenuBranch.invalidOption ∧
    Presenter.menuBranch "7" = MenuBranch.invalidOption ∧
    Presenter.menuBranch "0" = MenuBranch.exitLoop := by decide

/-- Claim C2 (amended: within the first `2^32 − 1` calls): the id generator's
values are strictly increasing and pairwise distinct, the first value is 1,
and each call returns the current counter and stores its wrapped successor. -/
theorem c2_idgen_strictly_increasing (i j N : Nat) (hij : i < j) (hjN : j < N)
    (hN : N ≤ U32MOD - 1) :
    id_generation.idValue 0 = 1 ∧
    id_generation.idValue i < id_generation.idValue j ∧
    id_generation.idValue i ≠ id_generation.idValue j ∧
    (id_generation.next (id_generation.counterAfter i)).1
      = id_generation.counterAfter i ∧
    id_generation.counterAfter (i + 1)
      = (id_generation.counterAfter i + 1) % U32MOD := by
  have hj : j < U32MOD - 1 := lt_of_lt_of_le hjN hN
  have hi : i < U32MOD - 1 := lt_trans hij hj
  refine ⟨?_, ?_, ?_, rfl, rfl⟩
  · rw [idValue_of_lt (show 0 < U32MOD - 1 by decide)]
  · rw [idValue_of_lt hi, idValue_of_lt hj]; omega
  · rw [idValue_of_lt hi, idValue_of_lt hj]; omega

/-- Witness for C2 at `i = 0`, `j = 1`, `N = 2`. -/
theorem c2_idgen_strictly_increasing_witness :
    id_generation.idValue 0 = 1 ∧
    id_generation.idValue 0 < id_generation.idValue 1 ∧
    id_generation.idValue 0 ≠ id_generation.idValue 1 ∧
    (id_generation.next (id_generation.counterAfter 0)).1
      = id_generation.counterAfter 0 ∧
    id_generation.counterAfter (0 + 1)
      = (id_generation.counterAfter 0 + 1) % U32MOD :=
  c2_idgen_strictly_increasing 0 1 2 (by decide) (by decide) (by decide)

/-- Counterexample to C2 as stated ("for every N"): within the first `2^32`
calls the issued values are not strictly increasing — the call at index
`2^32 − 2` returns `2^32 − 1`, while the next call wraps around to 0. -/
theorem c2_counterexample :
    U32MOD - 2 < U32MOD - 1 ∧
    id_generation.idValue (U32MOD - 2) = U32MOD - 1 ∧
    id_generation.idValue (U32MOD - 1) = 0 ∧
    ¬ id_generation.idValue (U32MOD - 2)
        < id_generation.idValue (U32MOD - 1) := by
  simp only [idValue_eq]
  decide

/-- Claim C9: the id counter is a u32 incremented with wrapping arithmetic —
`next` stores the successor modulo `2^32`; strict increase holds throughout
the first `2^32 − 1` calls and fails at the next call, where the returned
values wrap to 0 and then 1, repeating the very first issued id. -/
theorem c9_u32_wraparound (c i j : Nat) (hij : i < j) (hj : j < U32MOD - 1) :
    id_generation.next c = (c, (c + 1) % U32MOD) ∧
    id_generation.idValue i < id_generation.idValue j ∧
    id_generation.idValue (U32MOD - 1) = 0 ∧
    id_generation.idValue U32MOD = 1 ∧
    id_generation.idValue U32MOD = id_generation.idValue 0 ∧
    ¬ id_generation.idValue (U32MOD - 2)
        < id_generation.idValue (U32MOD - 1) := by
  refine ⟨rfl, ?_, ?_, ?_, ?_, ?_⟩
  · rw [idValue_of_lt (lt_trans hij hj), idValue_of_lt hj]; omega
  · simp only [idValue_eq]; decide
  · simp only [idValue_eq]; decide
  · simp only [idValue_eq]; decide
  · simp only [idValue_eq]; decide

/-- Witness for C9 at `c = 5`, `i = 0`, `j = 1`. -/
theorem c9_u32_wraparound_witness :
    id_generation.next 5 = (5, (5 + 1) % U32MOD) ∧
    id_generation.idValue 0 < id_generation.idValue 1 ∧
    id_generation.idValue (U32MOD - 1) = 0 ∧
    id_generation.idValue U32MOD = 1 ∧
    id_generation.idValue U32MOD = id_generation.idValue 0 ∧
    ¬ id_generation.idValue (U32MOD - 2)
        < id_generation.idValue (U32MOD - 1) :=
  c9_u32_wraparound 5 0 1 (by decide) (by decide)

/-- Claim C3: `delete` on an id carried by no task reports the not-found
error and leaves the store exactly unchanged; on a present id it succeeds
and removes precisely the first task carrying that id. -/
theorem c3_delete_not_found (m : List Task) (id : Nat) :
    ((∀ t ∈ m, t.id ≠ id) →
      TasksModel.delete m id = (Except.error (notFoundMsg id), m)) ∧
    (∀ pre t suf, m = pre ++ t :: suf → t.id = id → (∀ u ∈ pre, u.id ≠ id) →
      TasksModel.delete m id = (Except.ok (), pre ++ suf)) ∧
    ((∃ t ∈ m, t.id = id) → ∃ pre t suf, m = pre ++ t :: suf ∧ t.id = id ∧
      (∀ u ∈ pre, u.id ≠ id) ∧
      TasksModel.delete m id = (Except.ok (), pre ++ suf)) := by
  refine ⟨fun h => delete_absent h, ?_, ?_⟩
  · rintro pre t suf rfl ht hpre
    exact delete_first_match ht hpre
  · intro h
    rcases exists_first_match h with ⟨pre, t, suf, rfl, ht, hpre⟩
    exact ⟨pre, t, suf, rfl, ht, hpre, delete_first_match ht hpre⟩

/-- Witness for C3: deleting absent id 2 errs and keeps the store; deleting
present id 1 removes the task. -/
theorem c3_delete_not_found_witness :
    TasksModel.delete [⟨1, "a", "b", "7", false⟩] 2
      = (Except.error (notFoundMsg 2), [⟨1, "a", "b", "7", false⟩]) ∧
    TasksModel.delete [⟨1, "a", "b", "7", false⟩] 1
      = (Except.ok (), ([] : List Task) ++ []) := by
  constructor
  · exact (c3_delete_not_found [⟨1, "a", "b", "7", false⟩] 2).1 (by decide)
  · exact (c3_delete_not_found [⟨1, "a", "b", "7", false⟩] 1).2.1 []
      ⟨1, "a", "b", "7", false⟩ [] rfl rfl (by decide)

/-- Claim C4: toggling a present id flips exactly the first matching task's
done flag (everything else unchanged), and two consecutive toggles on the
same id restore the store to its original value. -/
theorem c4_toggle_involution (m : List Task) (id : Nat) :
    (∀ pre t suf, m = pre ++ t :: suf → t.id = id → (∀ u ∈ pre, u.id ≠ id) →
      TasksModel.toggle m id
        = (Except.ok (), pre ++ { t with done := !t.done } :: suf)) ∧
    ((∃ t ∈ m, t.id = id) →
      (TasksModel.toggle (TasksModel.toggle m id).2 id).2 = m) := by
  constructor
  · rintro pre t suf rfl ht hpre
    exact toggle_first_match ht hpre
  · intro h
    rcases exists_first_match h with ⟨pre, t, suf, rfl, ht, hpre⟩
    have ht2 : ({ t with done := !t.done } : Task).id = id := ht
    have h1 := @toggle_first_match pre t suf id ht hpre
    have h2 := @toggle_first_match pre { t with done := !t.done } suf id ht2 hpre
    simp only [h1]
    simp only [h2]
    simp [Bool.not_not]

/-- Witness for C4 on the one-task store with id 1. -/
theorem c4_toggle_involution_witness :
    TasksModel.toggle [⟨1, "a", "b", "7", false⟩] 1
      = (Except.ok (), [⟨1, "a", "b", "7", true⟩]) ∧
    (TasksModel.toggle (TasksModel.toggle [⟨1, "a", "b", "7", false⟩] 1).2
        1).2 = [⟨1, "a", "b", "7", false⟩] := by
  constructor
  · exact (c4_toggle_involution [⟨1, "a", "b", "7", false⟩] 1).1 []
      ⟨1, "a", "b", "7", false⟩ [] rfl rfl (by decide)
  · exact (c4_toggle_involution [⟨1, "a", "b", "7", false⟩] 1).2 (by decide)

/-- Claim C5: `delete_all` followed by `get_all` yields the empty sequence,
and `delete_all` on an already-empty store leaves it empty. -/
theorem c5_delete_all_empties (m : List Task) :
    TasksModel.get_all (TasksModel.delete_all m) = [] ∧
    TasksModel.delete_all ([] : List Task) = [] := ⟨rfl, rfl⟩

/-- Claim C6 (amended: the fresh-id clause holds provided at most `2^32 − 1`
ids have been issued before): `add` appends the task at the end of the
collection, growing it by exactly one with no other effect, and a freshly
constructed task's id differs from every previously issued id. -/
theorem c6_add_appends_fresh_id (m : List Task) (t : Task)
    (ti de da : String) (dn : Bool) (k i : Nat)
    (hk : k ≤ U32MOD - 1) (hik : i < k) :
    TasksModel.add m t = m ++ [t] ∧
    (TasksModel.add m t).length = m.length + 1 ∧
    (Task.new ti de da dn (id_generation.counterAfter k)).1.id
      = id_generation.idValue k ∧
    (Task.new ti de da dn (id_generation.counterAfter k)).1.id
      ≠ id_generation.idValue i := by
  have hi : i < U32MOD - 1 := lt_of_lt_of_le hik hk
  refine ⟨rfl, by simp [TasksModel.add], rfl, ?_⟩
  show id_generation.counterAfter k ≠ id_generation.idValue i
  rw [counterAfter_eq, idValue_of_lt hi]
  simp only [U32MOD] at hk ⊢
  omega

/-- Witness for C6 at `k = 2`, `i = 0`. -/
theorem c6_add_appends_fresh_id_witness :
    TasksModel.add [] ⟨1, "a", "b", "7", false⟩
      = [] ++ [⟨1, "a", "b", "7", false⟩] ∧
    (TasksModel.add [] ⟨1, "a", "b", "7", false⟩).length
      = List.length ([] : List Task) + 1 ∧
    (Task.new "a" "b" "7" false (id_generation.counterAfter 2)).1.id
      = id_generation.idValue 2 ∧
    (Task.new "a" "b" "7" false (id_generation.counterAfter 2)).1.id
      ≠ id_generation.idValue 0 :=
  c6_add_appends_fresh_id [] ⟨1, "a", "b", "7", false⟩ "a" "b" "7" false 2 0
    (by decide) (by decide)

/-- Counterexample to C6 as stated: after `2^32` prior ids have been issued
the u32 counter has wrapped, and the task built by `Task::new` carries id 1 —
equal to the very first previously issued id. -/
theorem c6_counterexample :
    (Task.new "a" "b" "7" false
        (id_generation.counterAfter U32MOD)).1.id = 1 ∧
    id_generation.idValue 0 = 1 := by
  constructor
  · show id_generation.counterAfter U32MOD = 1
    rw [counterAfter_eq]
    decide
  · rw [idValue_eq]
    decide

/-- Claim C7: when the title or the description line is blank after trimming,
`add_task` aborts silently — the store and the id counter are unchanged, no
task is created, and nothing is printed beyond the two prompts. -/
theorem c7_add_task_aborts (titleLine descLine nowSecs : String)
    (m : List Task) (c : Nat)
    (h : trimChars titleLine.data = [] ∨ trimChars descLine.data = []) :
    Presenter.add_task titleLine descLine nowSecs m c
      = (m, c, ["Enter task title:", "Enter task description:"]) := by
  have hemp : ∀ s : String, trimChars s.data = [] →
      (CliView.get_user_input s).isEmpty = true := by
    intro s hs
    unfold CliView.get_user_input
    rw [hs]
    exact string_mk_nil_isEmpty
  unfold Presenter.add_task
  rcases h with h | h
  · simp [hemp titleLine h]
  · simp [hemp descLine h]

/-- Witness for C7: a title line of spaces only aborts the add. -/
theorem c7_add_task_aborts_witness :
    Presenter.add_task "   " "desc" "7" [] 3
      = (([] : List Task), 3, ["Enter task title:", "Enter task description:"]) :=
  c7_add_task_aborts "   " "desc" "7" [] 3 (Or.inl (by decide))

/-- Claim C8: every store operation preserves the relative order of the tasks
that remain — `add` keeps the old store as a sublist (a prefix), `delete`'s
result is a sublist of the old store, `toggle` preserves every position and
id, `delete_all` trivially so — and `get_all` returns the store in exactly
that order. -/
theorem c8_operations_preserve_order (m : List Task) (t : Task) (id : Nat) :
    List.Sublist m (TasksModel.add m t) ∧
    List.Sublist (TasksModel.delete m id).2 m ∧
    (TasksModel.toggle m id).2.map Task.id = m.map Task.id ∧
    (TasksModel.toggle m id).2.length = m.length ∧
    List.Sublist (TasksModel.delete_all m) m ∧
    TasksModel.get_all m = m := by
  have hdel : List.Sublist (TasksModel.delete m id).2 m := by
    unfold TasksModel.delete
    rcases hpos : position (fun item => item.id == id) m with _ | i
    · simp only [hpos]
      exact List.Sublist.refl m
    · simp only [hpos]
      exact eraseIdx_sublist_self m i
  have htog : (TasksModel.toggle m id).2.map Task.id = m.map Task.id ∧
      (TasksModel.toggle m id).2.length = m.length := by
    by_cases hpres : ∃ u ∈ m, u.id = id
    · rcases exists_first_match hpres with ⟨pre, u, suf, rfl, hu, hpre⟩
      rw [toggle_first_match hu hpre]
      constructor <;> simp
    · push_neg at hpres
      simp [TasksModel.toggle, toggleGo_absent hpres]
  exact ⟨List.sublist_append_left m [t], hdel, htog.1, htog.2,
    List.nil_sublist m, rfl⟩

/-- Claim C10: `toggle` on an id carried by no task returns the not-found
error and leaves the store completely unchanged — same state, so no task's
done flag, id, title, description or date is modified and the size is the
same. -/
theorem c10_toggle_not_found (m : List Task) (id : Nat)
    (h : ∀ t ∈ m, t.id ≠ id) :
    TasksModel.toggle m id = (Except.error (notFoundMsg id), m) := by
  simp [TasksModel.toggle, toggleGo_absent h]

/-- Witness for C10 on a one-task store and the absent id 99. -/
theorem c10_toggle_not_found_witness :
    TasksModel.toggle [⟨1, "a", "b", "7", false⟩] 99
      = (Except.error (notFoundMsg 99), [⟨1, "a", "b", "7", false⟩]) :=
  c10_toggle_not_found [⟨1, "a", "b", "7", false⟩] 99 (by decide)

end TodoCli
